import Mathlib

/-!
# Verification of the orc-rs schema subsystem

Shallow embedding of `src/data_type.rs` and `src/error.rs` of the orc-rs
repository: the `TypeKind` / `ThinType` / `DataType` schema tree, the builder
functions, and the navigation API.  The column-id assignment pass and the flat
type-array codec are described by the specification but absent from the
sources, so they are modelled from the specification (each such definition is
marked in its doc comment).

Machine integers (`usize`, `u64`) are modelled as `Nat`: no arithmetic in the
embedded code can overflow (the only operations are comparisons, indexing and
counter increments).  Fallible Rust functions returning `OrcResult<T>` become
`Except OrcError T`; a possible Rust panic (out-of-bounds vector indexing) is
modelled by an outer `Option`, `none` meaning the panic.
-/

namespace Orc

/-- `OrcError` from `src/error.rs`.  The `External` variant of the source
additionally wraps a boxed source error object; only its message component is
modelled. -/
inductive OrcError where
  | General (msg : String)
  | ParseError (msg : String)
  | DataTypeError (msg : String)
  | External (msg : String)
deriving DecidableEq, Repr

/-- `OrcResult<T>` from `src/error.rs`. -/
abbrev OrcResult (T : Type) := Except OrcError T

/-- `TypeKind` from `src/data_type.rs`: the 19 wire-level tags. -/
inductive TypeKind where
  | Boolean
  | Byte
  | Short
  | Int
  | Long
  | Float
  | Double
  | String
  | Binary
  | Timestamp
  | List
  | Map
  | Struct
  | Union
  | Decimal
  | Date
  | Varchar
  | Char
  | TimestampInstant
deriving DecidableEq, Repr

/-- `TypeKind::is_primitive` from `src/data_type.rs`: true unless the kind is
List, Map, Struct, Union, Decimal, Varchar or Char. -/
def TypeKind.is_primitive : TypeKind → Bool
  | .List | .Map | .Struct | .Union | .Decimal | .Varchar | .Char => false
  | _ => true

/-- `TypeKind::is_char` from `src/data_type.rs`. -/
def TypeKind.is_char : TypeKind → Bool
  | .Char | .Varchar => true
  | _ => false

mutual

/-- `ThinType` from `src/data_type.rs`: the fully parameterized type, a
recursive tagged union. -/
inductive ThinType where
  | Boolean
  | Byte
  | Short
  | Int
  | Long
  | Float
  | Double
  | String
  | Binary
  | Timestamp
  | List (elem : DataType)
  | Map (key : DataType) (value : DataType)
  | Struct (fields : List Field)
  | Union (alts : List DataType)
  | Decimal (precision : Nat) (scale : Nat)
  | Date
  | Varchar (max_length : Nat)
  | Char (max_length : Nat)
  | TimestampInstant

/-- `DataType` from `src/data_type.rs`.  Field order follows the source
struct: `parent`, `column_id`, `maximum_column_id`, `thin_type`,
`attributes`, `subtype_count`.  The `attributes` HashMap is modelled as an
association list. -/
inductive DataType where
  | mk (parent : Option DataType) (column_id : Option Nat)
      (maximum_column_id : Option Nat) (thin_type : ThinType)
      (attributes : List (String × String)) (subtype_count : Nat)

/-- `Field` from `src/data_type.rs`: a named child slot of a Struct. -/
inductive Field where
  | mk (name : String) (datatype : DataType)

end

def DataType.parent : DataType → Option DataType
  | .mk p _ _ _ _ _ => p

def DataType.column_id : DataType → Option Nat
  | .mk _ cid _ _ _ _ => cid

def DataType.maximum_column_id : DataType → Option Nat
  | .mk _ _ mcid _ _ _ => mcid

def DataType.thin_type : DataType → ThinType
  | .mk _ _ _ tt _ _ => tt

def DataType.attributes : DataType → List (String × String)
  | .mk _ _ _ _ attrs _ => attrs

def DataType.subtype_count : DataType → Nat
  | .mk _ _ _ _ _ sc => sc

def Field.name : Field → String
  | .mk n _ => n

def Field.datatype : Field → DataType
  | .mk _ d => d

/-- `From<ThinType> for TypeKind` from `src/data_type.rs`: the tag of a
ThinType, never inspecting payload. -/
def TypeKind.fromThinType : ThinType → TypeKind
  | .Boolean => .Boolean
  | .Byte => .Byte
  | .Short => .Short
  | .Int => .Int
  | .Long => .Long
  | .Float => .Float
  | .Double => .Double
  | .String => .String
  | .Binary => .Binary
  | .Timestamp => .Timestamp
  | .List _ => .List
  | .Map _ _ => .Map
  | .Struct _ => .Struct
  | .Union _ => .Union
  | .Decimal _ _ => .Decimal
  | .Date => .Date
  | .Varchar _ => .Varchar
  | .Char _ => .Char
  | .TimestampInstant => .TimestampInstant

/-- `TryFrom<TypeKind> for ThinType` from `src/data_type.rs`: succeeds only
for kinds whose ThinType carries no payload. -/
def ThinType.try_from : TypeKind → OrcResult ThinType
  | .Boolean => .ok .Boolean
  | .Byte => .ok .Byte
  | .Short => .ok .Short
  | .Int => .ok .Int
  | .Long => .ok .Long
  | .Float => .ok .Float
  | .Double => .ok .Double
  | .String => .ok .String
  | .Binary => .ok .Binary
  | .Timestamp => .ok .Timestamp
  | .Date => .ok .Date
  | .TimestampInstant => .ok .TimestampInstant
  | _ => .error (.DataTypeError
      "Can not convert a non-primitive TypeKind to a ThinType")

/-- `DataType::new` from `src/data_type.rs`: a fresh node with no parent,
unassigned column ids, empty attributes and `subtype_count` 0. -/
def DataType.new (thin_type : ThinType) : DataType :=
  .mk none none none thin_type [] 0

/-- `DataType::get_subtype` from `src/data_type.rs`.  The Rust code indexes
the Struct and Union vectors after checking `child_id < self.subtype_count`
only, so the indexing itself can panic; the outer `Option` is `none` exactly
when the Rust code would panic. -/
def DataType.get_subtype (d : DataType) (child_id : Nat) :
    Option (OrcResult DataType) :=
  match d.thin_type with
  | .List s =>
    match child_id with
    | 0 => some (.ok s)
    | _ => some (.error (.DataTypeError "Lists have only one subtype."))
  | .Map k v =>
    match child_id with
    | 0 => some (.ok k)
    | 1 => some (.ok v)
    | _ => some (.error (.DataTypeError "Maps have only two subtypes."))
  | .Struct f =>
    if child_id < d.subtype_count then
      match f.get? child_id with
      | some fld => some (.ok fld.datatype)
      | none => none
    else
      some (.error (.DataTypeError "Index out of bound."))
  | .Union s =>
    if child_id < d.subtype_count then
      match s.get? child_id with
      | some sub => some (.ok sub)
      | none => none
    else
      some (.error (.DataTypeError "Index out of bound."))
  | _ => some (.error (.DataTypeError "Primitive types do not have subtypes."))

/-- `DataType::get_field_name` from `src/data_type.rs`; same panic modelling
as `get_subtype`. -/
def DataType.get_field_name (d : DataType) (child_id : Nat) :
    Option (OrcResult String) :=
  match d.thin_type with
  | .Struct f =>
    if child_id < d.subtype_count then
      match f.get? child_id with
      | some fld => some (.ok fld.name)
      | none => none
    else
      some (.error (.DataTypeError "Index out of bound."))
  | _ => some (.error (.DataTypeError "Non-structs do not have fieldnames."))

/-- `DataType::get_maximum_length` from `src/data_type.rs`. -/
def DataType.get_maximum_length (d : DataType) : OrcResult Nat :=
  match d.thin_type with
  | .Char max_length => .ok max_length
  | .Varchar max_length => .ok max_length
  | _ => .error (.DataTypeError
      "DataTypes other than Char or Varchar do not have maximum length.")

/-- `DataType::get_precision` from `src/data_type.rs`. -/
def DataType.get_precision (d : DataType) : OrcResult Nat :=
  match d.thin_type with
  | .Decimal precision _ => .ok precision
  | _ => .error (.DataTypeError
      "DataTypes other than Decimal do not have precision.")

/-- `DataType::get_scale` from `src/data_type.rs`. -/
def DataType.get_scale (d : DataType) : OrcResult Nat :=
  match d.thin_type with
  | .Decimal _ scale => .ok scale
  | _ => .error (.DataTypeError
      "DataTypes other than Decimal do not have scale.")

/-- `create_primitive_type` from `src/data_type.rs`. -/
def create_primitive_type (kind : TypeKind) : OrcResult DataType :=
  if kind.is_primitive then do
    let t ← ThinType.try_from kind
    pure (DataType.new t)
  else
    .error (.DataTypeError "The TypeKind is not primitive")

/-- `create_char_type` from `src/data_type.rs`. -/
def create_char_type (kind : TypeKind) (max_length : Nat) :
    OrcResult DataType := do
  let thin_type ←
    match kind with
    | .Char => pure (ThinType.Char max_length)
    | .Varchar => pure (ThinType.Varchar max_length)
    | _ => Except.error (OrcError.DataTypeError
        "The TypeKind is not Char or Varchar")
  pure (DataType.new thin_type)

/-- `create_decimal_type` from `src/data_type.rs`. -/
def create_decimal_type (kind : TypeKind) (precision : Nat) (scale : Nat) :
    OrcResult DataType :=
  match kind with
  | .Decimal => .ok (DataType.new (ThinType.Decimal precision scale))
  | _ => .error (.DataTypeError "The TypeKind is not decimal")

/-- `create_struct_type` from `src/data_type.rs`: a Struct with no fields. -/
def create_struct_type : OrcResult DataType :=
  .ok (DataType.new (ThinType.Struct []))

/-- `create_list_type` from `src/data_type.rs`. -/
def create_list_type (element_type : DataType) : OrcResult DataType :=
  .ok (DataType.new (ThinType.List element_type))

/-- `create_map_type` from `src/data_type.rs`. -/
def create_map_type (key_type : DataType) (value_type : DataType) :
    OrcResult DataType :=
  .ok (DataType.new (ThinType.Map key_type value_type))

/-- `create_union_type` from `src/data_type.rs`: a Union with no
alternatives. -/
def create_union_type : OrcResult DataType :=
  .ok (DataType.new (ThinType.Union []))

/-- The arity of a node as defined by its ThinType shape: 0 for scalars and
Decimal/Char/Varchar, 1 for List, 2 for Map, the number of fields or
alternatives for Struct/Union. -/
def ThinType.arity : ThinType → Nat
  | .List _ => 1
  | .Map _ _ => 2
  | .Struct fields => fields.length
  | .Union alts => alts.length
  | _ => 0

mutual

/-- The nodes of the subtree rooted at a node, in preorder: the node itself,
then the subtrees of its children left-to-right (List: its one element; Map:
key then value; Struct/Union: fields/alternatives in declared order). -/
def DataType.subnodes : DataType → List DataType
  | .mk p cid mcid tt attrs sc =>
    .mk p cid mcid tt attrs sc :: ThinType.childNodes tt

/-- The preorder node lists of a ThinType's children, concatenated
left-to-right. -/
def ThinType.childNodes : ThinType → List DataType
  | .List e => e.subnodes
  | .Map k v => k.subnodes ++ v.subnodes
  | .Struct fields => Field.listSubnodes fields
  | .Union alts => DataType.listSubnodes alts
  | _ => []

def Field.listSubnodes : List Field → List DataType
  | [] => []
  | .mk _ d :: fs => d.subnodes ++ Field.listSubnodes fs

def DataType.listSubnodes : List DataType → List DataType
  | [] => []
  | d :: ds => d.subnodes ++ DataType.listSubnodes ds

end

mutual

/-- Modelled from the spec: the `ColumnIdAssigner` pass (spec section 4.4) has
no implementation under `src/`.  A single depth-first preorder walk from a
caller-supplied counter: on entering a node, assign it the current counter
value and increment the counter; recurse into the children left-to-right as
defined by the shape; after all children return, set the node's
`maximum_column_id` to the counter value minus one.  Returns the stamped tree
and the final counter. -/
def assign_column_ids : DataType → Nat → DataType × Nat
  | .mk p _ _ tt attrs sc, c =>
    let r := ThinType.assignChildren tt (c + 1)
    (.mk p (some c) (some (r.2 - 1)) r.1 attrs sc, r.2)

/-- Modelled from the spec: the child recursion of the `ColumnIdAssigner`
(List: its one element; Map: key then value; Struct/Union: fields or
alternatives in declared order). -/
def ThinType.assignChildren : ThinType → Nat → ThinType × Nat
  | .List e, c =>
    let r := assign_column_ids e c
    (.List r.1, r.2)
  | .Map k v, c =>
    let rk := assign_column_ids k c
    let rv := assign_column_ids v rk.2
    (.Map rk.1 rv.1, rv.2)
  | .Struct fields, c =>
    let r := Field.assignList fields c
    (.Struct r.1, r.2)
  | .Union alts, c =>
    let r := DataType.assignList alts c
    (.Union r.1, r.2)
  | t, c => (t, c)

/-- Modelled from the spec: `ColumnIdAssigner` recursion over Struct fields
in declared order. -/
def Field.assignList : List Field → Nat → List Field × Nat
  | [], c => ([], c)
  | .mk n d :: fs, c =>
    let rd := assign_column_ids d c
    let rfs := Field.assignList fs rd.2
    (.mk n rd.1 :: rfs.1, rfs.2)

/-- Modelled from the spec: `ColumnIdAssigner` recursion over Union
alternatives in declared order. -/
def DataType.assignList : List DataType → Nat → List DataType × Nat
  | [], c => ([], c)
  | d :: ds, c =>
    let rd := assign_column_ids d c
    let rds := DataType.assignList ds rd.2
    (rd.1 :: rds.1, rds.2)

end

mutual

/-- Structural equality in the sense of the round-trip contract: same
TypeKinds, same shapes (including field names), same column ids, same decimal
precision/scale and char/varchar maximum lengths.  It does not compare the
parent link, the attributes, the denormalized `subtype_count`, or
`maximum_column_id`. -/
def DataType.structEq : DataType → DataType → Bool
  | .mk _ cid1 _ tt1 _ _, .mk _ cid2 _ tt2 _ _ =>
    cid1 == cid2 && ThinType.structEq tt1 tt2

def ThinType.structEq : ThinType → ThinType → Bool
  | .Boolean, .Boolean => true
  | .Byte, .Byte => true
  | .Short, .Short => true
  | .Int, .Int => true
  | .Long, .Long => true
  | .Float, .Float => true
  | .Double, .Double => true
  | .String, .String => true
  | .Binary, .Binary => true
  | .Timestamp, .Timestamp => true
  | .List a, .List b => DataType.structEq a b
  | .Map k1 v1, .Map k2 v2 => DataType.structEq k1 k2 && DataType.structEq v1 v2
  | .Struct fs1, .Struct fs2 => Field.listStructEq fs1 fs2
  | .Union as1, .Union as2 => DataType.listStructEq as1 as2
  | .Decimal p1 s1, .Decimal p2 s2 => p1 == p2 && s1 == s2
  | .Date, .Date => true
  | .Varchar n1, .Varchar n2 => n1 == n2
  | .Char n1, .Char n2 => n1 == n2
  | .TimestampInstant, .TimestampInstant => true
  | _, _ => false

def Field.listStructEq : List Field → List Field → Bool
  | [], [] => true
  | .mk n1 d1 :: fs1, .mk n2 d2 :: fs2 =>
    n1 == n2 && DataType.structEq d1 d2 && Field.listStructEq fs1 fs2
  | _, _ => false

def DataType.listStructEq : List DataType → List DataType → Bool
  | [], [] => true
  | d1 :: ds1, d2 :: ds2 =>
    DataType.structEq d1 d2 && DataType.listStructEq ds1 ds2
  | _, _ => false

end

/-- Modelled from the spec: one slot of the flat type array (spec sections
4.5 and 6): the node's TypeKind, the child column ids, the field names
(Struct only, parallel to the child ids), and the kind-dependent
parameters. -/
structure FlatEntry where
  kind : TypeKind
  subtypes : List Nat
  fieldNames : List String
  precision : Option Nat
  scale : Option Nat
  maximumLength : Option Nat
deriving Repr

/-- Modelled from the spec: the flat entry of one numbered node (spec section
6 table): child indices are the children's column ids; field names only for
Struct; precision/scale only for Decimal; maximum length only for
Char/Varchar.  An unassigned child column id is read as 0 (encode is only
specified on numbered trees). -/
def entryOf (d : DataType) : FlatEntry :=
  match d.thin_type with
  | .List e =>
    ⟨.List, [e.column_id.getD 0], [], none, none, none⟩
  | .Map k v =>
    ⟨.Map, [k.column_id.getD 0, v.column_id.getD 0], [], none, none, none⟩
  | .Struct fields =>
    ⟨.Struct, fields.map (fun f => f.datatype.column_id.getD 0),
      fields.map Field.name, none, none, none⟩
  | .Union alts =>
    ⟨.Union, alts.map (fun a => a.column_id.getD 0), [], none, none, none⟩
  | .Decimal p s => ⟨.Decimal, [], [], some p, some s, none⟩
  | .Varchar n => ⟨.Varchar, [], [], none, none, some n⟩
  | .Char n => ⟨.Char, [], [], none, none, some n⟩
  | t => ⟨TypeKind.fromThinType t, [], [], none, none, none⟩

/-- Modelled from the spec: `encode` of the `FlatTypeCodec` (spec section
4.5) has no implementation under `src/`.  One flat entry per node, in
preorder, so that for a numbered tree the array position of an entry is the
column id of its node. -/
def encode (T : DataType) : List FlatEntry :=
  T.subnodes.map entryOf

/-- Modelled from the spec: the running maximum column id of a decoded node:
its own id joined with the maxima of its decoded children. -/
def decodedMaxId (idx : Nat) (children : List DataType) : Nat :=
  children.foldl (fun m c => max m (c.maximum_column_id.getD 0)) idx

/-- Modelled from the spec: a decoded node at array position `idx`: no
parent, `column_id` recovered as the decode position, `maximum_column_id`
re-derived from the children, empty attributes, and `subtype_count`
re-derived from the resolved child list. -/
def decodedNode (idx : Nat) (tt : ThinType) (children : List DataType) :
    DataType :=
  .mk none (some idx) (some (decodedMaxId idx children)) tt []
    children.length

mutual

/-- Modelled from the spec: `decode` recursion of the `FlatTypeCodec` (spec
section 4.5), which has no implementation under `src/`.  Rebuilds the node
stored at array position `idx`, failing with a `ParseError` on an
out-of-range index, on a child index that does not point past its referencer
(a backward or self reference can only re-enter the tree at or above the
referencer), on malformed kind-dependent payload, or on fuel exhaustion
(which a cycle would cause). -/
def decodeNode (arr : List FlatEntry) : Nat → Nat → OrcResult DataType
  | 0, _ => .error (.ParseError "type graph contains a cycle")
  | fuel + 1, idx =>
    match arr.get? idx with
    | none => .error (.ParseError "type index out of range")
    | some e =>
      match e.kind with
      | .Boolean => .ok (decodedNode idx .Boolean [])
      | .Byte => .ok (decodedNode idx .Byte [])
      | .Short => .ok (decodedNode idx .Short [])
      | .Int => .ok (decodedNode idx .Int [])
      | .Long => .ok (decodedNode idx .Long [])
      | .Float => .ok (decodedNode idx .Float [])
      | .Double => .ok (decodedNode idx .Double [])
      | .String => .ok (decodedNode idx .String [])
      | .Binary => .ok (decodedNode idx .Binary [])
      | .Timestamp => .ok (decodedNode idx .Timestamp [])
      | .Date => .ok (decodedNode idx .Date [])
      | .TimestampInstant => .ok (decodedNode idx .TimestampInstant [])
      | .List =>
        match e.subtypes with
        | [i] => do
          let c ← decodeChild arr fuel idx i
          pure (decodedNode idx (.List c) [c])
        | _ => .error (.ParseError "List entry must have exactly one subtype")
      | .Map =>
        match e.subtypes with
        | [i, j] => do
          let k ← decodeChild arr fuel idx i
          let v ← decodeChild arr fuel idx j
          pure (decodedNode idx (.Map k v) [k, v])
        | _ => .error (.ParseError "Map entry must have exactly two subtypes")
      | .Struct =>
        if e.fieldNames.length = e.subtypes.length then do
          let cs ← decodeChildren arr fuel idx e.subtypes
          pure (decodedNode idx
            (.Struct (List.zipWith Field.mk e.fieldNames cs)) cs)
        else
          .error (.ParseError "Struct field names do not match its subtypes")
      | .Union => do
        let cs ← decodeChildren arr fuel idx e.subtypes
        pure (decodedNode idx (.Union cs) cs)
      | .Decimal =>
        match e.precision, e.scale with
        | some p, some s => .ok (decodedNode idx (.Decimal p s) [])
        | _, _ => .error (.ParseError "Decimal entry missing precision or scale")
      | .Varchar =>
        match e.maximumLength with
        | some n => .ok (decodedNode idx (.Varchar n) [])
        | none => .error (.ParseError "Varchar entry missing maximum length")
      | .Char =>
        match e.maximumLength with
        | some n => .ok (decodedNode idx (.Char n) [])
        | none => .error (.ParseError "Char entry missing maximum length")

/-- Modelled from the spec: resolving one child reference: the child index
must point strictly past the referencing entry (the flat array of a
preorder-numbered tree always does), else the reference re-enters the tree
at the referencer or above it. -/
def decodeChild (arr : List FlatEntry) (fuel : Nat) (idx : Nat) (i : Nat) :
    OrcResult DataType :=
  if i ≤ idx then
    .error (.ParseError "subtype index must point past its referencer")
  else
    decodeNode arr fuel i

/-- Modelled from the spec: resolving an entry's child references in
order. -/
def decodeChildren (arr : List FlatEntry) (fuel : Nat) (idx : Nat) :
    List Nat → OrcResult (List DataType)
  | [] => .ok []
  | i :: is => do
    let c ← decodeChild arr fuel idx i
    let cs ← decodeChildren arr fuel idx is
    pure (c :: cs)

end

/-- Modelled from the spec: `decode` of the `FlatTypeCodec` (spec section
4.5): rebuild the tree from the flat array starting at position 0.  The fuel
`arr.length + 1` bounds the recursion depth; a well-formed flat array of a
tree never exhausts it because every child reference points strictly
forward. -/
def decode (arr : List FlatEntry) : OrcResult DataType :=
  decodeNode arr (arr.length + 1) 0

/-- A concrete Map node, used by witnesses: `Map(Int, String)` as built by
`create_map_type`. -/
def exMapNode : DataType :=
  DataType.new (.Map (DataType.new .Int) (DataType.new .String))

/-- A concrete Struct node with one field and consistent `subtype_count`,
used by witnesses. -/
def exStructNode : DataType :=
  DataType.mk none none none (.Struct [Field.mk "a" (DataType.new .Long)]) [] 1

/-- The example schema of the claims: `Struct(a: Long, b: Struct(c: Int,
d: Int))`, built unassigned as the builders leave it. -/
def exSchema : DataType :=
  DataType.new (.Struct [
    .mk "a" (DataType.new .Long),
    .mk "b" (DataType.new (.Struct [
      .mk "c" (DataType.new .Int),
      .mk "d" (DataType.new .Int)]))])

/-- A node's `maximum_column_id` is assigned and equals the largest column id
found anywhere in its own subtree. -/
def HasMaxId (n : DataType) : Prop :=
  ∃ m, n.maximum_column_id = some m
    ∧ some m ∈ n.subnodes.map DataType.column_id
    ∧ ∀ i, some i ∈ n.subnodes.map DataType.column_id → i ≤ m

theorem hasMaxId_of_ids {n : DataType} {c L : Nat}
    (h : n.subnodes.map DataType.column_id = (List.range' c (L + 1)).map some)
    (hm : n.maximum_column_id = some (c + L)) : HasMaxId n := by
  refine ⟨c + L, hm, ?_, ?_⟩
  · rw [h]
    exact List.mem_map_of_mem some (by rw [List.mem_range'_1]; omega)
  · intro i hi
    rw [h] at hi
    obtain ⟨x, hx, he⟩ := List.mem_map.mp hi
    injection he with he
    subst he
    rw [List.mem_range'_1] at hx
    omega

mutual

/-- After the assignment pass starting at counter `c`, the column ids of the
subtree, listed in preorder, are exactly `c, c+1, ...`, and the final counter
is `c` plus the number of nodes. -/
theorem assign_tree_ids : ∀ (d : DataType) (c : Nat),
    (assign_column_ids d c).1.subnodes.map DataType.column_id
      = (List.range' c d.subnodes.length).map some
    ∧ (assign_column_ids d c).2 = c + d.subnodes.length
  | .mk p cid mcid tt attrs sc, c => by
    obtain ⟨h1, h2⟩ := assign_children_ids tt (c + 1)
    simp only [assign_column_ids, DataType.subnodes, List.map_cons,
      DataType.column_id, List.length_cons, h1, h2]
    constructor
    · rw [List.range'_succ, List.map_cons]
    · omega

theorem assign_children_ids : ∀ (tt : ThinType) (c : Nat),
    (ThinType.childNodes (ThinType.assignChildren tt c).1).map
        DataType.column_id
      = (List.range' c (ThinType.childNodes tt).length).map some
    ∧ (ThinType.assignChildren tt c).2 = c + (ThinType.childNodes tt).length
  | .Boolean, c => by simp [ThinType.assignChildren, ThinType.childNodes]
  | .Byte, c => by simp [ThinType.assignChildren, ThinType.childNodes]
  | .Short, c => by simp [ThinType.assignChildren, ThinType.childNodes]
  | .Int, c => by simp [ThinType.assignChildren, ThinType.childNodes]
  | .Long, c => by simp [ThinType.assignChildren, ThinType.childNodes]
  | .Float, c => by simp [ThinType.assignChildren, ThinType.childNodes]
  | .Double, c => by simp [ThinType.assignChildren, ThinType.childNodes]
  | .String, c => by simp [ThinType.assignChildren, ThinType.childNodes]
  | .Binary, c => by simp [ThinType.assignChildren, ThinType.childNodes]
  | .Timestamp, c => by simp [ThinType.assignChildren, ThinType.childNodes]
  | .Date, c => by simp [ThinType.assignChildren, ThinType.childNodes]
  | .TimestampInstant, c => by
    simp [ThinType.assignChildren, ThinType.childNodes]
  | .Decimal _ _, c => by simp [ThinType.assignChildren, ThinType.childNodes]
  | .Varchar _, c => by simp [ThinType.assignChildren, ThinType.childNodes]
  | .Char _, c => by simp [ThinType.assignChildren, ThinType.childNodes]
  | .List e, c => by
    obtain ⟨h1, h2⟩ := assign_tree_ids e c
    simp only [ThinType.assignChildren, ThinType.childNodes]
    exact ⟨h1, h2⟩
  | .Map k v, c => by
    obtain ⟨hk1, hk2⟩ := assign_tree_ids k c
    obtain ⟨hv1, hv2⟩ := assign_tree_ids v (assign_column_ids k c).2
    simp only [ThinType.assignChildren, ThinType.childNodes,
      List.map_append, List.length_append]
    rw [hk2] at hv1 hv2 ⊢
    constructor
    · rw [hk1, hv1, ← List.map_append, List.range'_append_1, Nat.add_comm]
    · rw [hv2]
      omega
  | .Struct fields, c => by
    obtain ⟨h1, h2⟩ := assign_fields_ids fields c
    simp only [ThinType.assignChildren, ThinType.childNodes]
    exact ⟨h1, h2⟩
  | .Union alts, c => by
    obtain ⟨h1, h2⟩ := assign_alts_ids alts c
    simp only [ThinType.assignChildren, ThinType.childNodes]
    exact ⟨h1, h2⟩

theorem assign_fields_ids : ∀ (fs : List Field) (c : Nat),
    (Field.listSubnodes (Field.assignList fs c).1).map DataType.column_id
      = (List.range' c (Field.listSubnodes fs).length).map some
    ∧ (Field.assignList fs c).2 = c + (Field.listSubnodes fs).length
  | [], c => by simp [Field.assignList, Field.listSubnodes]
  | .mk n d :: fs, c => by
    obtain ⟨hd1, hd2⟩ := assign_tree_ids d c
    obtain ⟨hf1, hf2⟩ := assign_fields_ids fs (assign_column_ids d c).2
    simp only [Field.assignList, Field.listSubnodes, List.map_append,
      List.length_append]
    rw [hd2] at hf1 hf2 ⊢
    constructor
    · rw [hd1, hf1, ← List.map_append, List.range'_append_1, Nat.add_comm]
    · rw [hf2]
      omega

theorem assign_alts_ids : ∀ (ds : List DataType) (c : Nat),
    (DataType.listSubnodes (DataType.assignList ds c).1).map
        DataType.column_id
      = (List.range' c (DataType.listSubnodes ds).length).map some
    ∧ (DataType.assignList ds c).2 = c + (DataType.listSubnodes ds).length
  | [], c => by simp [DataType.assignList, DataType.listSubnodes]
  | d :: ds, c => by
    obtain ⟨hd1, hd2⟩ := assign_tree_ids d c
    obtain ⟨hf1, hf2⟩ := assign_alts_ids ds (assign_column_ids d c).2
    simp only [DataType.assignList, DataType.listSubnodes, List.map_append,
      List.length_append]
    rw [hd2] at hf1 hf2 ⊢
    constructor
    · rw [hd1, hf1, ← List.map_append, List.range'_append_1, Nat.add_comm]
    · rw [hf2]
      omega

end

mutual

/-- After the assignment pass, every node of the resulting tree has its
`maximum_column_id` equal to the largest column id in its own subtree. -/
theorem assign_tree_max : ∀ (d : DataType) (c : Nat),
    ∀ n ∈ (assign_column_ids d c).1.subnodes, HasMaxId n
  | .mk p cid mcid tt attrs sc, c => by
    intro n hn
    obtain ⟨h1, h2⟩ := assign_children_ids tt (c + 1)
    rw [show (assign_column_ids (.mk p cid mcid tt attrs sc) c).1.subnodes
        = (assign_column_ids (.mk p cid mcid tt attrs sc) c).1
          :: ThinType.childNodes
              (ThinType.assignChildren tt (c + 1)).1 by
      simp only [assign_column_ids, DataType.subnodes]] at hn
    rcases List.mem_cons.mp hn with h | h
    · subst h
      refine hasMaxId_of_ids (c := c) (L := (ThinType.childNodes tt).length)
        ?_ ?_
      · have := (assign_tree_ids (.mk p cid mcid tt attrs sc) c).1
        simpa only [DataType.subnodes, List.length_cons] using this
      · simp only [assign_column_ids, DataType.maximum_column_id, h2]
        congr 1
        omega
    · exact assign_children_max tt (c + 1) n h

theorem assign_children_max : ∀ (tt : ThinType) (c : Nat),
    ∀ n ∈ ThinType.childNodes (ThinType.assignChildren tt c).1, HasMaxId n
  | .Boolean, c => by simp [ThinType.assignChildren, ThinType.childNodes]
  | .Byte, c => by simp [ThinType.assignChildren, ThinType.childNodes]
  | .Short, c => by simp [ThinType.assignChildren, ThinType.childNodes]
  | .Int, c => by simp [ThinType.assignChildren, ThinType.childNodes]
  | .Long, c => by simp [ThinType.assignChildren, ThinType.childNodes]
  | .Float, c => by simp [ThinType.assignChildren, ThinType.childNodes]
  | .Double, c => by simp [ThinType.assignChildren, ThinType.childNodes]
  | .String, c => by simp [ThinType.assignChildren, ThinType.childNodes]
  | .Binary, c => by simp [ThinType.assignChildren, ThinType.childNodes]
  | .Timestamp, c => by simp [ThinType.assignChildren, ThinType.childNodes]
  | .Date, c => by simp [ThinType.assignChildren, ThinType.childNodes]
  | .TimestampInstant, c => by
    simp [ThinType.assignChildren, ThinType.childNodes]
  | .Decimal _ _, c => by simp [ThinType.assignChildren, ThinType.childNodes]
  | .Varchar _, c => by simp [ThinType.assignChildren, ThinType.childNodes]
  | .Char _, c => by simp [ThinType.assignChildren, ThinType.childNodes]
  | .List e, c => by
    intro n hn
    simp only [ThinType.assignChildren, ThinType.childNodes] at hn
    exact assign_tree_max e c n hn
  | .Map k v, c => by
    intro n hn
    simp only [ThinType.assignChildren, ThinType.childNodes,
      List.mem_append] at hn
    rcases hn with h | h
    · exact assign_tree_max k c n h
    · exact assign_tree_max v (assign_column_ids k c).2 n h
  | .Struct fields, c => by
    intro n hn
    simp only [ThinType.assignChildren, ThinType.childNodes] at hn
    exact assign_fields_max fields c n hn
  | .Union alts, c => by
    intro n hn
    simp only [ThinType.assignChildren, ThinType.childNodes] at hn
    exact assign_alts_max alts c n hn

theorem assign_fields_max : ∀ (fs : List Field) (c : Nat),
    ∀ n ∈ Field.listSubnodes (Field.assignList fs c).1, HasMaxId n
  | [], c => by simp [Field.assignList, Field.listSubnodes]
  | .mk nm d :: fs, c => by
    intro n hn
    simp only [Field.assignList, Field.listSubnodes,
      List.mem_append] at hn
    rcases hn with h | h
    · exact assign_tree_max d c n h
    · exact assign_fields_max fs (assign_column_ids d c).2 n h

theorem assign_alts_max : ∀ (ds : List DataType) (c : Nat),
    ∀ n ∈ DataType.listSubnodes (DataType.assignList ds c).1, HasMaxId n
  | [], c => by simp [DataType.assignList, DataType.listSubnodes]
  | d :: ds, c => by
    intro n hn
    simp only [DataType.assignList, DataType.listSubnodes,
      List.mem_append] at hn
    rcases hn with h | h
    · exact assign_tree_max d c n h
    · exact assign_alts_max ds (assign_column_ids d c).2 n h

end

theorem assign_column_id_eq (d : DataType) (c : Nat) :
    (assign_column_ids d c).1.column_id = some c := by
  cases d
  simp [assign_column_ids, DataType.column_id]

theorem assign_subnodes_length (d : DataType) (c : Nat) :
    (assign_column_ids d c).1.subnodes.length = d.subnodes.length := by
  have h := congrArg List.length (assign_tree_ids d c).1
  simpa using h

theorem assign_listSubnodes_length (fs : List Field) (c : Nat) :
    (Field.listSubnodes (Field.assignList fs c).1).length
      = (Field.listSubnodes fs).length := by
  have h := congrArg List.length (assign_fields_ids fs c).1
  simpa using h

theorem assign_altsSubnodes_length (ds : List DataType) (c : Nat) :
    (DataType.listSubnodes (DataType.assignList ds c).1).length
      = (DataType.listSubnodes ds).length := by
  have h := congrArg List.length (assign_alts_ids ds c).1
  simpa using h

/-- A contiguous slice hypothesis for a cons list yields the head entry. -/
theorem slice_head {α : Type} {arr : List α} {c : Nat} {e : α} {l : List α}
    (H : ∀ j, j < (e :: l).length → arr[c + j]? = (e :: l)[j]?) :
    arr[c]? = some e := by
  have := H 0 (Nat.succ_pos _)
  simpa using this

/-- A contiguous slice hypothesis for a cons list yields one for the tail,
shifted by one. -/
theorem slice_tail {α : Type} {arr : List α} {c : Nat} {e : α} {l : List α}
    (H : ∀ j, j < (e :: l).length → arr[c + j]? = (e :: l)[j]?) :
    ∀ j, j < l.length → arr[c + 1 + j]? = l[j]? := by
  intro j hj
  have := H (j + 1) (by simp; omega)
  rw [show c + (j + 1) = c + 1 + j by omega] at this
  simpa using this

/-- A contiguous slice hypothesis for an appended list yields one for the
left part. -/
theorem slice_append_left {α : Type} {arr : List α} {c : Nat}
    {l1 l2 : List α}
    (H : ∀ j, j < (l1 ++ l2).length → arr[c + j]? = (l1 ++ l2)[j]?) :
    ∀ j, j < l1.length → arr[c + j]? = l1[j]? := by
  intro j hj
  rw [H j (by simp; omega), List.getElem?_append_left hj]

/-- A contiguous slice hypothesis for an appended list yields one for the
right part, shifted by the length of the left part. -/
theorem slice_append_right {α : Type} {arr : List α} {c : Nat}
    {l1 l2 : List α}
    (H : ∀ j, j < (l1 ++ l2).length → arr[c + j]? = (l1 ++ l2)[j]?) :
    ∀ j, j < l2.length → arr[c + l1.length + j]? = l2[j]? := by
  intro j hj
  have := H (l1.length + j) (by simp; omega)
  rw [show c + (l1.length + j) = c + l1.length + j by omega] at this
  rw [this, List.getElem?_append_right (by omega)]
  congr 1
  omega

/-- C1: the column-id assignment pass starting from counter 0 assigns every
node a column id in preorder (the node before its descendants, children
left-to-right), densely from 0, and sets each node's `maximum_column_id` to
the largest id in its own subtree; for the schema
`Struct(a: Long, b: Struct(c: Int, d: Int))` the preorder ids are
0, 1, 2, 3, 4 and the maximum ids are root=4, a=1, b=4, c=3, d=4. -/
theorem C1_column_id_assignment :
    (∀ T : DataType,
        (assign_column_ids T 0).1.subnodes.map DataType.column_id
          = (List.range T.subnodes.length).map some
        ∧ ∀ n ∈ (assign_column_ids T 0).1.subnodes, HasMaxId n)
    ∧ (assign_column_ids exSchema 0).1.subnodes.map DataType.column_id
        = [some 0, some 1, some 2, some 3, some 4]
    ∧ (assign_column_ids exSchema 0).1.subnodes.map
          DataType.maximum_column_id
        = [some 4, some 1, some 4, some 3, some 4] := by
  refine ⟨fun T => ⟨?_, fun n hn => assign_tree_max T 0 n hn⟩, rfl, rfl⟩
  rw [List.range_eq_range']
  exact (assign_tree_ids T 0).1

/-- C1 witness: the maximum-id part of the theorem applied to the root of
the assigned example schema. -/
theorem C1_column_id_assignment_witness :
    HasMaxId (assign_column_ids exSchema 0).1 :=
  (C1_column_id_assignment.1 exSchema).2 (assign_column_ids exSchema 0).1
    (List.mem_cons_self _ _)

/-- C4: for every TypeKind value, `is_primitive` returns true if and only if
the kind is one of the 12 non-parameterized kinds (Boolean, Byte, Short, Int,
Long, Float, Double, String, Binary, Timestamp, Date, TimestampInstant), and
returns false for List, Map, Struct, Union, Decimal, Char, Varchar. -/
theorem C4_is_primitive_iff_the_twelve :
    (∀ k : TypeKind, k.is_primitive = true ↔
      (k = .Boolean ∨ k = .Byte ∨ k = .Short ∨ k = .Int ∨ k = .Long ∨
        k = .Float ∨ k = .Double ∨ k = .String ∨ k = .Binary ∨
        k = .Timestamp ∨ k = .Date ∨ k = .TimestampInstant))
    ∧ TypeKind.List.is_primitive = false
    ∧ TypeKind.Map.is_primitive = false
    ∧ TypeKind.Struct.is_primitive = false
    ∧ TypeKind.Union.is_primitive = false
    ∧ TypeKind.Decimal.is_primitive = false
    ∧ TypeKind.Char.is_primitive = false
    ∧ TypeKind.Varchar.is_primitive = false := by
  refine ⟨fun k => ?_, rfl, rfl, rfl, rfl, rfl, rfl, rfl⟩
  cases k <;> decide

/-- C5: `ThinType::try_from` returns Ok for exactly the 12 payload-free
kinds and returns a DataTypeError for each of List, Map, Struct, Union,
Decimal, Char, Varchar. -/
theorem C5_try_from_ok_iff_primitive :
    ∀ k : TypeKind,
      ((ThinType.try_from k).isOk = true ↔
        (k = .Boolean ∨ k = .Byte ∨ k = .Short ∨ k = .Int ∨ k = .Long ∨
          k = .Float ∨ k = .Double ∨ k = .String ∨ k = .Binary ∨
          k = .Timestamp ∨ k = .Date ∨ k = .TimestampInstant))
      ∧ ((k = .List ∨ k = .Map ∨ k = .Struct ∨ k = .Union ∨ k = .Decimal ∨
          k = .Char ∨ k = .Varchar) →
          ThinType.try_from k = .error (.DataTypeError
            "Can not convert a non-primitive TypeKind to a ThinType")) := by
  intro k
  cases k <;>
    exact ⟨by decide, by intro h; first | rfl | exact absurd h (by decide)⟩

/-- C5 witness: the theorem applied at the concrete input `TypeKind.Struct`. -/
theorem C5_try_from_witness :
    ThinType.try_from .Struct = .error (.DataTypeError
      "Can not convert a non-primitive TypeKind to a ThinType") :=
  (C5_try_from_ok_iff_primitive .Struct).2 (by decide)

/-- C6: `TypeKind::from` is total on ThinType and maps every variant to its
matching tag without inspecting payload, and for every primitive TypeKind the
conversion round-trips through `ThinType::try_from`. -/
theorem C6_kind_projection_roundtrip :
    TypeKind.fromThinType .Boolean = .Boolean
    ∧ TypeKind.fromThinType .Byte = .Byte
    ∧ TypeKind.fromThinType .Short = .Short
    ∧ TypeKind.fromThinType .Int = .Int
    ∧ TypeKind.fromThinType .Long = .Long
    ∧ TypeKind.fromThinType .Float = .Float
    ∧ TypeKind.fromThinType .Double = .Double
    ∧ TypeKind.fromThinType .String = .String
    ∧ TypeKind.fromThinType .Binary = .Binary
    ∧ TypeKind.fromThinType .Timestamp = .Timestamp
    ∧ TypeKind.fromThinType .Date = .Date
    ∧ TypeKind.fromThinType .TimestampInstant = .TimestampInstant
    ∧ (∀ e, TypeKind.fromThinType (.List e) = .List)
    ∧ (∀ k v, TypeKind.fromThinType (.Map k v) = .Map)
    ∧ (∀ fields, TypeKind.fromThinType (.Struct fields) = .Struct)
    ∧ (∀ alts, TypeKind.fromThinType (.Union alts) = .Union)
    ∧ (∀ p s, TypeKind.fromThinType (.Decimal p s) = .Decimal)
    ∧ (∀ n, TypeKind.fromThinType (.Varchar n) = .Varchar)
    ∧ (∀ n, TypeKind.fromThinType (.Char n) = .Char)
    ∧ (∀ k : TypeKind, k.is_primitive = true →
        (ThinType.try_from k).map TypeKind.fromThinType = .ok k) := by
  refine ⟨rfl, rfl, rfl, rfl, rfl, rfl, rfl, rfl, rfl, rfl, rfl, rfl,
    fun _ => rfl, fun _ _ => rfl, fun _ => rfl, fun _ => rfl,
    fun _ _ => rfl, fun _ => rfl, fun _ => rfl, fun k h => ?_⟩
  cases k <;> first | rfl | exact absurd h (by decide)

/-- C6 witness: the round-trip part applied at the concrete primitive kind
`TypeKind.Long`. -/
theorem C6_kind_projection_witness :
    (ThinType.try_from .Long).map TypeKind.fromThinType = .ok .Long :=
  C6_kind_projection_roundtrip.2.2.2.2.2.2.2.2.2.2.2.2.2.2.2.2.2.2.2
    .Long (by decide)

/-- C3 counterexample: `create_list_type` succeeds with a node whose
`subtype_count` is 0 although the arity of its List shape is 1, so
`subtype_count` does not equal the node's actual arity on every construction
path. -/
theorem C3_subtype_count_counterexample :
    ∃ d, create_list_type (DataType.new .Long) = .ok d
      ∧ d.subtype_count = 0 ∧ d.thin_type.arity = 1 :=
  ⟨DataType.new (.List (DataType.new .Long)), rfl, rfl, rfl⟩

/-- C3 amended: every construction path sets `subtype_count` to 0
(`DataType::new` hardcodes it), which equals the arity for the shapes
produced by `create_primitive_type`, `create_char_type`,
`create_decimal_type` and the empty `create_struct_type` /
`create_union_type`, but `create_list_type` returns a List node (arity 1)
and `create_map_type` a Map node (arity 2) still carrying
`subtype_count` 0. -/
theorem C3_subtype_count_amended :
    (∀ tt, (DataType.new tt).subtype_count = 0)
    ∧ (∀ k d, create_primitive_type k = .ok d →
        d.subtype_count = d.thin_type.arity)
    ∧ (∀ k n d, create_char_type k n = .ok d →
        d.subtype_count = d.thin_type.arity)
    ∧ (∀ k p s d, create_decimal_type k p s = .ok d →
        d.subtype_count = d.thin_type.arity)
    ∧ (∀ d, create_struct_type = .ok d → d.subtype_count = d.thin_type.arity)
    ∧ (∀ d, create_union_type = .ok d → d.subtype_count = d.thin_type.arity)
    ∧ (∀ e d, create_list_type e = .ok d →
        d.subtype_count = 0 ∧ d.thin_type.arity = 1)
    ∧ (∀ kt vt d, create_map_type kt vt = .ok d →
        d.subtype_count = 0 ∧ d.thin_type.arity = 2) := by
  refine ⟨fun tt => rfl, fun k d h => ?_, fun k n d h => ?_,
    fun k p s d h => ?_, fun d h => ?_, fun d h => ?_,
    fun e d h => ?_, fun kt vt d h => ?_⟩
  · cases k <;> first
      | (injection h with h2; subst h2; rfl)
      | exact Except.noConfusion h
  · cases k <;> first
      | (injection h with h2; subst h2; rfl)
      | exact Except.noConfusion h
  · cases k <;> first
      | (injection h with h2; subst h2; rfl)
      | exact Except.noConfusion h
  · cases h; rfl
  · cases h; rfl
  · cases h; exact ⟨rfl, rfl⟩
  · cases h; exact ⟨rfl, rfl⟩

/-- C3 amended witness: the amended theorem applied to the concrete builder
call `create_map_type` on two fresh primitive nodes. -/
theorem C3_subtype_count_amended_witness :
    exMapNode.subtype_count = 0 ∧ exMapNode.thin_type.arity = 2 :=
  C3_subtype_count_amended.2.2.2.2.2.2.2 (DataType.new .Int)
    (DataType.new .String) exMapNode rfl

/-- C8: every builder returns a node whose `column_id` and
`maximum_column_id` are in the explicit unassigned state `none`, never
defaulted to 0. -/
theorem C8_builders_return_unassigned :
    (∀ k d, create_primitive_type k = .ok d →
        d.column_id = none ∧ d.maximum_column_id = none)
    ∧ (∀ k n d, create_char_type k n = .ok d →
        d.column_id = none ∧ d.maximum_column_id = none)
    ∧ (∀ k p s d, create_decimal_type k p s = .ok d →
        d.column_id = none ∧ d.maximum_column_id = none)
    ∧ (∀ d, create_struct_type = .ok d →
        d.column_id = none ∧ d.maximum_column_id = none)
    ∧ (∀ d, create_union_type = .ok d →
        d.column_id = none ∧ d.maximum_column_id = none)
    ∧ (∀ e d, create_list_type e = .ok d →
        d.column_id = none ∧ d.maximum_column_id = none)
    ∧ (∀ kt vt d, create_map_type kt vt = .ok d →
        d.column_id = none ∧ d.maximum_column_id = none) := by
  refine ⟨fun k d h => ?_, fun k n d h => ?_, fun k p s d h => ?_,
    fun d h => ?_, fun d h => ?_, fun e d h => ?_, fun kt vt d h => ?_⟩
  · cases k <;> first
      | (injection h with h2; subst h2; exact ⟨rfl, rfl⟩)
      | exact Except.noConfusion h
  · cases k <;> first
      | (injection h with h2; subst h2; exact ⟨rfl, rfl⟩)
      | exact Except.noConfusion h
  · cases k <;> first
      | (injection h with h2; subst h2; exact ⟨rfl, rfl⟩)
      | exact Except.noConfusion h
  · cases h; exact ⟨rfl, rfl⟩
  · cases h; exact ⟨rfl, rfl⟩
  · cases h; exact ⟨rfl, rfl⟩
  · cases h; exact ⟨rfl, rfl⟩

/-- C8 witness: the theorem applied at the concrete builder call
`create_list_type (DataType.new .Int)`. -/
theorem C8_builders_unassigned_witness :
    (DataType.new (.List (DataType.new .Int))).column_id = none
    ∧ (DataType.new (.List (DataType.new .Int))).maximum_column_id = none :=
  C8_builders_return_unassigned.2.2.2.2.2.1 (DataType.new .Int) _ rfl

/-- C9: `create_char_type` fails with a DataTypeError unless the kind is
Char or Varchar and on success stores the length verbatim;
`create_decimal_type` fails with a DataTypeError unless the kind is Decimal
and on success stores precision and scale; in particular
`create_char_type Boolean 10` fails and `create_decimal_type Decimal 10 2`
succeeds with precision 10 and scale 2. -/
theorem C9_char_decimal_builders :
    (∀ k n, k ≠ .Char → k ≠ .Varchar →
        create_char_type k n = .error (.DataTypeError
          "The TypeKind is not Char or Varchar"))
    ∧ (∀ n, ∃ d, create_char_type .Char n = .ok d
        ∧ d.get_maximum_length = .ok n)
    ∧ (∀ n, ∃ d, create_char_type .Varchar n = .ok d
        ∧ d.get_maximum_length = .ok n)
    ∧ (∀ k p s, k ≠ .Decimal →
        create_decimal_type k p s = .error (.DataTypeError
          "The TypeKind is not decimal"))
    ∧ (∀ p s, ∃ d, create_decimal_type .Decimal p s = .ok d
        ∧ d.get_precision = .ok p ∧ d.get_scale = .ok s)
    ∧ create_char_type .Boolean 10 = .error (.DataTypeError
        "The TypeKind is not Char or Varchar")
    ∧ (∃ d, create_decimal_type .Decimal 10 2 = .ok d
        ∧ d.get_precision = .ok 10 ∧ d.get_scale = .ok 2) := by
  refine ⟨fun k n h1 h2 => ?_, fun n => ⟨_, rfl, rfl⟩, fun n => ⟨_, rfl, rfl⟩,
    fun k p s h => ?_, fun p s => ⟨_, rfl, rfl, rfl⟩, rfl, ⟨_, rfl, rfl, rfl⟩⟩
  · cases k <;> first | rfl | exact absurd rfl h1 | exact absurd rfl h2
  · cases k <;> first | rfl | exact absurd rfl h

/-- C9 witness: the failure parts applied at the concrete inputs
`(TypeKind.Boolean, 10)` and `(TypeKind.Int, 10, 2)`. -/
theorem C9_char_decimal_builders_witness :
    create_char_type .Boolean 10 = .error (.DataTypeError
      "The TypeKind is not Char or Varchar")
    ∧ create_decimal_type .Int 10 2 = .error (.DataTypeError
      "The TypeKind is not decimal") :=
  ⟨C9_char_decimal_builders.1 .Boolean 10 (by decide) (by decide),
    C9_char_decimal_builders.2.2.2.1 .Int 10 2 (by decide)⟩

/-- C7: `get_subtype` on a List returns the element exactly at 0; on a Map
the key at 0 and the value at 1; on a Struct or Union the child exactly when
`child_id < subtype_count` (stated under the internal invariant
`subtype_count ≤` stored vector length, without which the Rust code panics
instead of returning); every other case fails with a DataTypeError, the
no-subtypes message distinguished from the index-out-of-bound one. -/
theorem C7_get_subtype_cases :
    (∀ p cid mcid attrs sc e,
        (DataType.mk p cid mcid (.List e) attrs sc).get_subtype 0
          = some (.ok e)
        ∧ ∀ i, i ≠ 0 →
          (DataType.mk p cid mcid (.List e) attrs sc).get_subtype i
            = some (.error (.DataTypeError "Lists have only one subtype.")))
    ∧ (∀ p cid mcid attrs sc k v,
        (DataType.mk p cid mcid (.Map k v) attrs sc).get_subtype 0
          = some (.ok k)
        ∧ (DataType.mk p cid mcid (.Map k v) attrs sc).get_subtype 1
          = some (.ok v)
        ∧ ∀ i, 1 < i →
          (DataType.mk p cid mcid (.Map k v) attrs sc).get_subtype i
            = some (.error (.DataTypeError "Maps have only two subtypes.")))
    ∧ (∀ p cid mcid attrs sc fields, sc ≤ fields.length → ∀ i,
        (i < sc → ∃ fld, fields.get? i = some fld ∧
          (DataType.mk p cid mcid (.Struct fields) attrs sc).get_subtype i
            = some (.ok fld.datatype))
        ∧ (sc ≤ i →
          (DataType.mk p cid mcid (.Struct fields) attrs sc).get_subtype i
            = some (.error (.DataTypeError "Index out of bound."))))
    ∧ (∀ p cid mcid attrs sc alts, sc ≤ alts.length → ∀ i,
        (i < sc → ∃ sub, alts.get? i = some sub ∧
          (DataType.mk p cid mcid (.Union alts) attrs sc).get_subtype i
            = some (.ok sub))
        ∧ (sc ≤ i →
          (DataType.mk p cid mcid (.Union alts) attrs sc).get_subtype i
            = some (.error (.DataTypeError "Index out of bound."))))
    ∧ (∀ p cid mcid attrs sc tt,
        TypeKind.fromThinType tt ≠ .List → TypeKind.fromThinType tt ≠ .Map →
        TypeKind.fromThinType tt ≠ .Struct →
        TypeKind.fromThinType tt ≠ .Union →
        ∀ i, (DataType.mk p cid mcid tt attrs sc).get_subtype i
          = some (.error (.DataTypeError
              "Primitive types do not have subtypes."))) := by
  refine ⟨fun p cid mcid attrs sc e => ⟨rfl, fun i hi => ?_⟩,
    fun p cid mcid attrs sc k v => ⟨rfl, rfl, fun i hi => ?_⟩,
    fun p cid mcid attrs sc fields hlen i => ⟨fun hi => ?_, fun hi => ?_⟩,
    fun p cid mcid attrs sc alts hlen i => ⟨fun hi => ?_, fun hi => ?_⟩,
    fun p cid mcid attrs sc tt h1 h2 h3 h4 i => ?_⟩
  · match i, hi with
    | n + 1, _ => rfl
  · match i, hi with
    | n + 2, _ => rfl
  · have hl : i < fields.length := lt_of_lt_of_le hi hlen
    refine ⟨fields.get ⟨i, hl⟩, List.get?_eq_get hl, ?_⟩
    simp [DataType.get_subtype, DataType.thin_type, DataType.subtype_count,
      hi, List.getElem?_eq_getElem hl]
  · simp [DataType.get_subtype, DataType.thin_type, DataType.subtype_count,
      Nat.not_lt.mpr hi]
  · have hl : i < alts.length := lt_of_lt_of_le hi hlen
    refine ⟨alts.get ⟨i, hl⟩, List.get?_eq_get hl, ?_⟩
    simp [DataType.get_subtype, DataType.thin_type, DataType.subtype_count,
      hi, List.getElem?_eq_getElem hl]
  · simp [DataType.get_subtype, DataType.thin_type, DataType.subtype_count,
      Nat.not_lt.mpr hi]
  · cases tt <;> try rfl
    exacts [absurd rfl h1, absurd rfl h2, absurd rfl h3, absurd rfl h4]

/-- C7 witness: the Map part of the theorem applied at the concrete node
`Map(Int, String)` and the out-of-range index 2. -/
theorem C7_get_subtype_witness :
    exMapNode.get_subtype 2
      = some (.error (.DataTypeError "Maps have only two subtypes.")) :=
  (C7_get_subtype_cases.2.1 none none none [] 0 (DataType.new .Int)
    (DataType.new .String)).2.2 2 (by decide)

/-- C10: on Struct and Union nodes, `get_subtype` and `get_field_name`
bounds-check `child_id` against the stored `subtype_count` rather than the
vector length: they are panic-free for every index exactly when
`subtype_count ≤` the vector length, and under that precondition they
return Ok exactly when `child_id < subtype_count`. -/
theorem C10_bounds_checked_against_subtype_count :
    ∀ p cid mcid attrs sc,
      (∀ fields,
        ((∀ i, ((DataType.mk p cid mcid (.Struct fields) attrs sc).get_subtype
            i).isSome = true) ↔ sc ≤ fields.length)
        ∧ ((∀ i, ((DataType.mk p cid mcid (.Struct fields) attrs
            sc).get_field_name i).isSome = true) ↔ sc ≤ fields.length)
        ∧ (sc ≤ fields.length → ∀ i,
            ((∃ r, (DataType.mk p cid mcid (.Struct fields) attrs
                sc).get_subtype i = some (.ok r)) ↔ i < sc)
            ∧ ((∃ s, (DataType.mk p cid mcid (.Struct fields) attrs
                sc).get_field_name i = some (.ok s)) ↔ i < sc)))
      ∧ (∀ alts,
        ((∀ i, ((DataType.mk p cid mcid (.Union alts) attrs sc).get_subtype
            i).isSome = true) ↔ sc ≤ alts.length)
        ∧ (sc ≤ alts.length → ∀ i,
            (∃ r, (DataType.mk p cid mcid (.Union alts) attrs
              sc).get_subtype i = some (.ok r)) ↔ i < sc)) := by
  intro p cid mcid attrs sc
  constructor
  · intro fields
    refine ⟨⟨fun h => ?_, fun h i => ?_⟩, ⟨fun h => ?_, fun h i => ?_⟩,
      fun h i => ⟨⟨fun hr => ?_, fun hi => ?_⟩, ⟨fun hr => ?_, fun hi => ?_⟩⟩⟩
    · by_contra hlt
      have hb := h fields.length
      simp [DataType.get_subtype, DataType.thin_type, DataType.subtype_count,
        Nat.lt_of_not_le hlt, List.getElem?_eq_none (le_refl fields.length)] at hb
    · by_cases hi : i < sc
      · have hl : i < fields.length := lt_of_lt_of_le hi h
        simp [DataType.get_subtype, DataType.thin_type,
          DataType.subtype_count, hi, List.getElem?_eq_getElem hl]
      · simp [DataType.get_subtype, DataType.thin_type,
          DataType.subtype_count, hi]
    · by_contra hlt
      have hb := h fields.length
      simp [DataType.get_field_name, DataType.thin_type,
        DataType.subtype_count, Nat.lt_of_not_le hlt,
        List.getElem?_eq_none (le_refl fields.length)] at hb
    · by_cases hi : i < sc
      · have hl : i < fields.length := lt_of_lt_of_le hi h
        simp [DataType.get_field_name, DataType.thin_type,
          DataType.subtype_count, hi, List.getElem?_eq_getElem hl]
      · simp [DataType.get_field_name, DataType.thin_type,
          DataType.subtype_count, hi]
    · by_contra hi
      obtain ⟨r, hr⟩ := hr
      simp [DataType.get_subtype, DataType.thin_type, DataType.subtype_count,
        hi] at hr
    · have hl : i < fields.length := lt_of_lt_of_le hi h
      exact ⟨(fields.get ⟨i, hl⟩).datatype, by
        simp [DataType.get_subtype, DataType.thin_type,
          DataType.subtype_count, hi, List.getElem?_eq_getElem hl]⟩
    · by_contra hi
      obtain ⟨s, hs⟩ := hr
      simp [DataType.get_field_name, DataType.thin_type,
        DataType.subtype_count, hi] at hs
    · have hl : i < fields.length := lt_of_lt_of_le hi h
      exact ⟨(fields.get ⟨i, hl⟩).name, by
        simp [DataType.get_field_name, DataType.thin_type,
          DataType.subtype_count, hi, List.getElem?_eq_getElem hl]⟩
  · intro alts
    refine ⟨⟨fun h => ?_, fun h i => ?_⟩,
      fun h i => ⟨fun hr => ?_, fun hi => ?_⟩⟩
    · by_contra hlt
      have hb := h alts.length
      simp [DataType.get_subtype, DataType.thin_type, DataType.subtype_count,
        Nat.lt_of_not_le hlt, List.getElem?_eq_none (le_refl alts.length)] at hb
    · by_cases hi : i < sc
      · have hl : i < alts.length := lt_of_lt_of_le hi h
        simp [DataType.get_subtype, DataType.thin_type,
          DataType.subtype_count, hi, List.getElem?_eq_getElem hl]
      · simp [DataType.get_subtype, DataType.thin_type,
          DataType.subtype_count, hi]
    · by_contra hi
      obtain ⟨r, hr⟩ := hr
      simp [DataType.get_subtype, DataType.thin_type, DataType.subtype_count,
        hi] at hr
    · have hl : i < alts.length := lt_of_lt_of_le hi h
      exact ⟨alts.get ⟨i, hl⟩, by
        simp [DataType.get_subtype, DataType.thin_type,
          DataType.subtype_count, hi, List.getElem?_eq_getElem hl]⟩

/-- C10 witness: the Struct part applied at a concrete one-field Struct with
`subtype_count` 1: index 0 returns Ok. -/
theorem C10_bounds_witness :
    ∃ r, exStructNode.get_subtype 0 = some (.ok r) :=
  (((C10_bounds_checked_against_subtype_count none none none [] 1).1
    [Field.mk "a" (DataType.new .Long)]).2.2 (by decide) 0).1.mpr (by decide)

theorem subnodes_length_pos (d : DataType) : 0 < d.subnodes.length := by
  cases d
  simp [DataType.subnodes]

mutual

theorem decode_tree : ∀ (d : DataType) (c : Nat) (arr : List FlatEntry)
    (fuel : Nat),
    (∀ j, j < ((assign_column_ids d c).1.subnodes.map entryOf).length →
        arr[c + j]? = ((assign_column_ids d c).1.subnodes.map entryOf)[j]?) →
    (assign_column_ids d c).1.subnodes.length ≤ fuel →
    ∃ t, decodeNode arr fuel c = .ok t
      ∧ DataType.structEq (assign_column_ids d c).1 t = true
  | .mk p cid mcid .Boolean attrs sc, c, arr, fuel => by
    intro H hfuel
    have hsub : (assign_column_ids (.mk p cid mcid .Boolean attrs sc)
          c).1.subnodes
        = [(assign_column_ids (.mk p cid mcid .Boolean attrs sc) c).1] := by
      simp [assign_column_ids, ThinType.assignChildren, DataType.subnodes,
        ThinType.childNodes]
    rw [hsub] at H hfuel
    simp only [List.map_cons, List.map_nil] at H
    simp only [List.length_cons, List.length_nil] at hfuel
    have h0 := slice_head H
    rw [show entryOf (assign_column_ids
        (.mk p cid mcid ThinType.Boolean attrs sc) c).1
      = ⟨.Boolean, [], [], none, none, none⟩ from rfl] at h0
    cases fuel with
    | zero => omega
    | succ f =>
      refine ⟨decodedNode c .Boolean [], ?_, ?_⟩
      · simp [decodeNode, h0]
      · simp [assign_column_ids, ThinType.assignChildren, DataType.structEq,
          ThinType.structEq, decodedNode]
  | .mk p cid mcid .Byte attrs sc, c, arr, fuel => by
    intro H hfuel
    have hsub : (assign_column_ids (.mk p cid mcid .Byte attrs sc)
          c).1.subnodes
        = [(assign_column_ids (.mk p cid mcid .Byte attrs sc) c).1] := by
      simp [assign_column_ids, ThinType.assignChildren, DataType.subnodes,
        ThinType.childNodes]
    rw [hsub] at H hfuel
    simp only [List.map_cons, List.map_nil] at H
    simp only [List.length_cons, List.length_nil] at hfuel
    have h0 := slice_head H
    rw [show entryOf (assign_column_ids
        (.mk p cid mcid ThinType.Byte attrs sc) c).1
      = ⟨.Byte, [], [], none, none, none⟩ from rfl] at h0
    cases fuel with
    | zero => omega
    | succ f =>
      refine ⟨decodedNode c .Byte [], ?_, ?_⟩
      · simp [decodeNode, h0]
      · simp [assign_column_ids, ThinType.assignChildren, DataType.structEq,
          ThinType.structEq, decodedNode]
  | .mk p cid mcid .Short attrs sc, c, arr, fuel => by
    intro H hfuel
    have hsub : (assign_column_ids (.mk p cid mcid .Short attrs sc)
          c).1.subnodes
        = [(assign_column_ids (.mk p cid mcid .Short attrs sc) c).1] := by
      simp [assign_column_ids, ThinType.assignChildren, DataType.subnodes,
        ThinType.childNodes]
    rw [hsub] at H hfuel
    simp only [List.map_cons, List.map_nil] at H
    simp only [List.length_cons, List.length_nil] at hfuel
    have h0 := slice_head H
    rw [show entryOf (assign_column_ids
        (.mk p cid mcid ThinType.Short attrs sc) c).1
      = ⟨.Short, [], [], none, none, none⟩ from rfl] at h0
    cases fuel with
    | zero => omega
    | succ f =>
      refine ⟨decodedNode c .Short [], ?_, ?_⟩
      · simp [decodeNode, h0]
      · simp [assign_column_ids, ThinType.assignChildren, DataType.structEq,
          ThinType.structEq, decodedNode]
  | .mk p cid mcid .Int attrs sc, c, arr, fuel => by
    intro H hfuel
    have hsub : (assign_column_ids (.mk p cid mcid .Int attrs sc)
          c).1.subnodes
        = [(assign_column_ids (.mk p cid mcid .Int attrs sc) c).1] := by
      simp [assign_column_ids, ThinType.assignChildren, DataType.subnodes,
        ThinType.childNodes]
    rw [hsub] at H hfuel
    simp only [List.map_cons, List.map_nil] at H
    simp only [List.length_cons, List.length_nil] at hfuel
    have h0 := slice_head H
    rw [show entryOf (assign_column_ids
        (.mk p cid mcid ThinType.Int attrs sc) c).1
      = ⟨.Int, [], [], none, none, none⟩ from rfl] at h0
    cases fuel with
    | zero => omega
    | succ f =>
      refine ⟨decodedNode c .Int [], ?_, ?_⟩
      · simp [decodeNode, h0]
      · simp [assign_column_ids, ThinType.assignChildren, DataType.structEq,
          ThinType.structEq, decodedNode]
  | .mk p cid mcid .Long attrs sc, c, arr, fuel => by
    intro H hfuel
    have hsub : (assign_column_ids (.mk p cid mcid .Long attrs sc)
          c).1.subnodes
        = [(assign_column_ids (.mk p cid mcid .Long attrs sc) c).1] := by
      simp [assign_column_ids, ThinType.assignChildren, DataType.subnodes,
        ThinType.childNodes]
    rw [hsub] at H hfuel
    simp only [List.map_cons, List.map_nil] at H
    simp only [List.length_cons, List.length_nil] at hfuel
    have h0 := slice_head H
    rw [show entryOf (assign_column_ids
        (.mk p cid mcid ThinType.Long attrs sc) c).1
      = ⟨.Long, [], [], none, none, none⟩ from rfl] at h0
    cases fuel with
    | zero => omega
    | succ f =>
      refine ⟨decodedNode c .Long [], ?_, ?_⟩
      · simp [decodeNode, h0]
      · simp [assign_column_ids, ThinType.assignChildren, DataType.structEq,
          ThinType.structEq, decodedNode]
  | .mk p cid mcid .Float attrs sc, c, arr, fuel => by
    intro H hfuel
    have hsub : (assign_column_ids (.mk p cid mcid .Float attrs sc)
          c).1.subnodes
        = [(assign_column_ids (.mk p cid mcid .Float attrs sc) c).1] := by
      simp [assign_column_ids, ThinType.assignChildren, DataType.subnodes,
        ThinType.childNodes]
    rw [hsub] at H hfuel
    simp only [List.map_cons, List.map_nil] at H
    simp only [List.length_cons, List.length_nil] at hfuel
    have h0 := slice_head H
    rw [show entryOf (assign_column_ids
        (.mk p cid mcid ThinType.Float attrs sc) c).1
      = ⟨.Float, [], [], none, none, none⟩ from rfl] at h0
    cases fuel with
    | zero => omega
    | succ f =>
      refine ⟨decodedNode c .Float [], ?_, ?_⟩
      · simp [decodeNode, h0]
      · simp [assign_column_ids, ThinType.assignChildren, DataType.structEq,
          ThinType.structEq, decodedNode]
  | .mk p cid mcid .Double attrs sc, c, arr, fuel => by
    intro H hfuel
    have hsub : (assign_column_ids (.mk p cid mcid .Double attrs sc)
          c).1.subnodes
        = [(assign_column_ids (.mk p cid mcid .Double attrs sc) c).1] := by
      simp [assign_column_ids, ThinType.assignChildren, DataType.subnodes,
        ThinType.childNodes]
    rw [hsub] at H hfuel
    simp only [List.map_cons, List.map_nil] at H
    simp only [List.length_cons, List.length_nil] at hfuel
    have h0 := slice_head H
    rw [show entryOf (assign_column_ids
        (.mk p cid mcid ThinType.Double attrs sc) c).1
      = ⟨.Double, [], [], none, none, none⟩ from rfl] at h0
    cases fuel with
    | zero => omega
    | succ f =>
      refine ⟨decodedNode c .Double [], ?_, ?_⟩
      · simp [decodeNode, h0]
      · simp [assign_column_ids, ThinType.assignChildren, DataType.structEq,
          ThinType.structEq, decodedNode]
  | .mk p cid mcid .String attrs sc, c, arr, fuel => by
    intro H hfuel
    have hsub : (assign_column_ids (.mk p cid mcid .String attrs sc)
          c).1.subnodes
        = [(assign_column_ids (.mk p cid mcid .String attrs sc) c).1] := by
      simp [assign_column_ids, ThinType.assignChildren, DataType.subnodes,
        ThinType.childNodes]
    rw [hsub] at H hfuel
    simp only [List.map_cons, List.map_nil] at H
    simp only [List.length_cons, List.length_nil] at hfuel
    have h0 := slice_head H
    rw [show entryOf (assign_column_ids
        (.mk p cid mcid ThinType.String attrs sc) c).1
      = ⟨.String, [], [], none, none, none⟩ from rfl] at h0
    cases fuel with
    | zero => omega
    | succ f =>
      refine ⟨decodedNode c .String [], ?_, ?_⟩
      · simp [decodeNode, h0]
      · simp [assign_column_ids, ThinType.assignChildren, DataType.structEq,
          ThinType.structEq, decodedNode]
  | .mk p cid mcid .Binary attrs sc, c, arr, fuel => by
    intro H hfuel
    have hsub : (assign_column_ids (.mk p cid mcid .Binary attrs sc)
          c).1.subnodes
        = [(assign_column_ids (.mk p cid mcid .Binary attrs sc) c).1] := by
      simp [assign_column_ids, ThinType.assignChildren, DataType.subnodes,
        ThinType.childNodes]
    rw [hsub] at H hfuel
    simp only [List.map_cons, List.map_nil] at H
    simp only [List.length_cons, List.length_nil] at hfuel
    have h0 := slice_head H
    rw [show entryOf (assign_column_ids
        (.mk p cid mcid ThinType.Binary attrs sc) c).1
      = ⟨.Binary, [], [], none, none, none⟩ from rfl] at h0
    cases fuel with
    | zero => omega
    | succ f =>
      refine ⟨decodedNode c .Binary [], ?_, ?_⟩
      · simp [decodeNode, h0]
      · simp [assign_column_ids, ThinType.assignChildren, DataType.structEq,
          ThinType.structEq, decodedNode]
  | .mk p cid mcid .Timestamp attrs sc, c, arr, fuel => by
    intro H hfuel
    have hsub : (assign_column_ids (.mk p cid mcid .Timestamp attrs sc)
          c).1.subnodes
        = [(assign_column_ids (.mk p cid mcid .Timestamp attrs sc) c).1] := by
      simp [assign_column_ids, ThinType.assignChildren, DataType.subnodes,
        ThinType.childNodes]
    rw [hsub] at H hfuel
    simp only [List.map_cons, List.map_nil] at H
    simp only [List.length_cons, List.length_nil] at hfuel
    have h0 := slice_head H
    rw [show entryOf (assign_column_ids
        (.mk p cid mcid ThinType.Timestamp attrs sc) c).1
      = ⟨.Timestamp, [], [], none, none, none⟩ from rfl] at h0
    cases fuel with
    | zero => omega
    | succ f =>
      refine ⟨decodedNode c .Timestamp [], ?_, ?_⟩
      · simp [decodeNode, h0]
      · simp [assign_column_ids, ThinType.assignChildren, DataType.structEq,
          ThinType.structEq, decodedNode]
  | .mk p cid mcid .Date attrs sc, c, arr, fuel => by
    intro H hfuel
    have hsub : (assign_column_ids (.mk p cid mcid .Date attrs sc)
          c).1.subnodes
        = [(assign_column_ids (.mk p cid mcid .Date attrs sc) c).1] := by
      simp [assign_column_ids, ThinType.assignChildren, DataType.subnodes,
        ThinType.childNodes]
    rw [hsub] at H hfuel
    simp only [List.map_cons, List.map_nil] at H
    simp only [List.length_cons, List.length_nil] at hfuel
    have h0 := slice_head H
    rw [show entryOf (assign_column_ids
        (.mk p cid mcid ThinType.Date attrs sc) c).1
      = ⟨.Date, [], [], none, none, none⟩ from rfl] at h0
    cases fuel with
    | zero => omega
    | succ f =>
      refine ⟨decodedNode c .Date [], ?_, ?_⟩
      · simp [decodeNode, h0]
      · simp [assign_column_ids, ThinType.assignChildren, DataType.structEq,
          ThinType.structEq, decodedNode]
  | .mk p cid mcid .TimestampInstant attrs sc, c, arr, fuel => by
    intro H hfuel
    have hsub : (assign_column_ids (.mk p cid mcid .TimestampInstant attrs sc)
          c).1.subnodes
        = [(assign_column_ids (.mk p cid mcid .TimestampInstant attrs sc) c).1] := by
      simp [assign_column_ids, ThinType.assignChildren, DataType.subnodes,
        ThinType.childNodes]
    rw [hsub] at H hfuel
    simp only [List.map_cons, List.map_nil] at H
    simp only [List.length_cons, List.length_nil] at hfuel
    have h0 := slice_head H
    rw [show entryOf (assign_column_ids
        (.mk p cid mcid ThinType.TimestampInstant attrs sc) c).1
      = ⟨.TimestampInstant, [], [], none, none, none⟩ from rfl] at h0
    cases fuel with
    | zero => omega
    | succ f =>
      refine ⟨decodedNode c .TimestampInstant [], ?_, ?_⟩
      · simp [decodeNode, h0]
      · simp [assign_column_ids, ThinType.assignChildren, DataType.structEq,
          ThinType.structEq, decodedNode]
  | .mk p cid mcid (.Decimal pr sca) attrs sc, c, arr, fuel => by
    intro H hfuel
    have hsub : (assign_column_ids (.mk p cid mcid (.Decimal pr sca) attrs sc)
          c).1.subnodes
        = [(assign_column_ids (.mk p cid mcid (.Decimal pr sca) attrs sc) c).1] := by
      simp [assign_column_ids, ThinType.assignChildren, DataType.subnodes,
        ThinType.childNodes]
    rw [hsub] at H hfuel
    simp only [List.map_cons, List.map_nil] at H
    simp only [List.length_cons, List.length_nil] at hfuel
    have h0 := slice_head H
    rw [show entryOf (assign_column_ids
        (.mk p cid mcid (ThinType.Decimal pr sca) attrs sc) c).1
      = ⟨.Decimal, [], [], some pr, some sca, none⟩ from rfl] at h0
    cases fuel with
    | zero => omega
    | succ f =>
      refine ⟨decodedNode c (.Decimal pr sca) [], ?_, ?_⟩
      · simp [decodeNode, h0]
      · simp [assign_column_ids, ThinType.assignChildren, DataType.structEq,
          ThinType.structEq, decodedNode]
  | .mk p cid mcid (.Varchar n) attrs sc, c, arr, fuel => by
    intro H hfuel
    have hsub : (assign_column_ids (.mk p cid mcid (.Varchar n) attrs sc)
          c).1.subnodes
        = [(assign_column_ids (.mk p cid mcid (.Varchar n) attrs sc) c).1] := by
      simp [assign_column_ids, ThinType.assignChildren, DataType.subnodes,
        ThinType.childNodes]
    rw [hsub] at H hfuel
    simp only [List.map_cons, List.map_nil] at H
    simp only [List.length_cons, List.length_nil] at hfuel
    have h0 := slice_head H
    rw [show entryOf (assign_column_ids
        (.mk p cid mcid (ThinType.Varchar n) attrs sc) c).1
      = ⟨.Varchar, [], [], none, none, some n⟩ from rfl] at h0
    cases fuel with
    | zero => omega
    | succ f =>
      refine ⟨decodedNode c (.Varchar n) [], ?_, ?_⟩
      · simp [decodeNode, h0]
      · simp [assign_column_ids, ThinType.assignChildren, DataType.structEq,
          ThinType.structEq, decodedNode]
  | .mk p cid mcid (.Char n) attrs sc, c, arr, fuel => by
    intro H hfuel
    have hsub : (assign_column_ids (.mk p cid mcid (.Char n) attrs sc)
          c).1.subnodes
        = [(assign_column_ids (.mk p cid mcid (.Char n) attrs sc) c).1] := by
      simp [assign_column_ids, ThinType.assignChildren, DataType.subnodes,
        ThinType.childNodes]
    rw [hsub] at H hfuel
    simp only [List.map_cons, List.map_nil] at H
    simp only [List.length_cons, List.length_nil] at hfuel
    have h0 := slice_head H
    rw [show entryOf (assign_column_ids
        (.mk p cid mcid (ThinType.Char n) attrs sc) c).1
      = ⟨.Char, [], [], none, none, some n⟩ from rfl] at h0
    cases fuel with
    | zero => omega
    | succ f =>
      refine ⟨decodedNode c (.Char n) [], ?_, ?_⟩
      · simp [decodeNode, h0]
      · simp [assign_column_ids, ThinType.assignChildren, DataType.structEq,
          ThinType.structEq, decodedNode]
  | .mk p cid mcid (.List e) attrs sc, c, arr, fuel => by
    intro H hfuel
    have hsub : (assign_column_ids (.mk p cid mcid (.List e) attrs sc)
          c).1.subnodes
        = (assign_column_ids (.mk p cid mcid (.List e) attrs sc) c).1
          :: (assign_column_ids e (c + 1)).1.subnodes := by
      simp [assign_column_ids, ThinType.assignChildren, DataType.subnodes,
        ThinType.childNodes]
    rw [hsub] at H hfuel
    simp only [List.map_cons] at H
    simp only [List.length_cons] at hfuel
    have h0 := slice_head H
    have Htail := slice_tail H
    have hentry : entryOf (assign_column_ids
          (.mk p cid mcid (.List e) attrs sc) c).1
        = ⟨.List, [c + 1], [], none, none, none⟩ := by
      simp [entryOf, assign_column_ids, ThinType.assignChildren,
        DataType.thin_type, assign_column_id_eq]
    rw [hentry] at h0
    cases fuel with
    | zero => omega
    | succ f =>
      obtain ⟨t, hdec, heq⟩ := decode_tree e (c + 1) arr f Htail
        (by have := assign_subnodes_length e (c + 1); omega)
      have hlt : ¬(c + 1 ≤ c) := by omega
      refine ⟨decodedNode c (.List t) [t], ?_, ?_⟩
      · simp [decodeNode, h0, decodeChild, hlt, hdec]
      · simp [assign_column_ids, ThinType.assignChildren, DataType.structEq,
          ThinType.structEq, decodedNode, heq]
  | .mk p cid mcid (.Map k v) attrs sc, c, arr, fuel => by
    intro H hfuel
    have hsub : (assign_column_ids (.mk p cid mcid (.Map k v) attrs sc)
          c).1.subnodes
        = (assign_column_ids (.mk p cid mcid (.Map k v) attrs sc) c).1
          :: ((assign_column_ids k (c + 1)).1.subnodes
              ++ (assign_column_ids v
                  (assign_column_ids k (c + 1)).2).1.subnodes) := by
      simp [assign_column_ids, ThinType.assignChildren, DataType.subnodes,
        ThinType.childNodes]
    rw [hsub] at H hfuel
    simp only [List.map_cons, List.map_append] at H
    simp only [List.length_cons, List.length_append] at hfuel
    have h0 := slice_head H
    have Htail := slice_tail H
    have Hk := slice_append_left Htail
    have Hv0 := slice_append_right Htail
    have hoff : c + 1 + (List.map entryOf
          (assign_column_ids k (c + 1)).1.subnodes).length
        = (assign_column_ids k (c + 1)).2 := by
      rw [List.length_map, assign_subnodes_length]
      exact ((assign_tree_ids k (c + 1)).2).symm
    simp only [hoff] at Hv0
    have hentry : entryOf (assign_column_ids
          (.mk p cid mcid (.Map k v) attrs sc) c).1
        = ⟨.Map, [c + 1, (assign_column_ids k (c + 1)).2], [],
            none, none, none⟩ := by
      simp [entryOf, assign_column_ids, ThinType.assignChildren,
        DataType.thin_type, assign_column_id_eq]
    rw [hentry] at h0
    cases fuel with
    | zero => omega
    | succ f =>
      obtain ⟨tk, hdk, heqk⟩ := decode_tree k (c + 1) arr f Hk
        (by have := assign_subnodes_length k (c + 1)
            have := assign_subnodes_length v (assign_column_ids k (c + 1)).2
            omega)
      obtain ⟨tv, hdv, heqv⟩ := decode_tree v
        (assign_column_ids k (c + 1)).2 arr f Hv0
        (by have := assign_subnodes_length k (c + 1)
            have := assign_subnodes_length v (assign_column_ids k (c + 1)).2
            omega)
      have hlt1 : ¬(c + 1 ≤ c) := by omega
      have hlt2 : ¬((assign_column_ids k (c + 1)).2 ≤ c) := by
        have := (assign_tree_ids k (c + 1)).2
        omega
      refine ⟨decodedNode c (.Map tk tv) [tk, tv], ?_, ?_⟩
      · simp [decodeNode, h0, decodeChild, hlt1, hlt2, hdk, hdv]
        try rfl
      · simp [assign_column_ids, ThinType.assignChildren, DataType.structEq,
          ThinType.structEq, decodedNode, heqk, heqv]
  | .mk p cid mcid (.Struct fields) attrs sc, c, arr, fuel => by
    intro H hfuel
    have hsub : (assign_column_ids (.mk p cid mcid (.Struct fields) attrs sc)
          c).1.subnodes
        = (assign_column_ids (.mk p cid mcid (.Struct fields) attrs sc) c).1
          :: Field.listSubnodes (Field.assignList fields (c + 1)).1 := by
      simp [assign_column_ids, ThinType.assignChildren, DataType.subnodes,
        ThinType.childNodes]
    rw [hsub] at H hfuel
    simp only [List.map_cons] at H
    simp only [List.length_cons] at hfuel
    have h0 := slice_head H
    have Htail := slice_tail H
    have hentry : entryOf (assign_column_ids
          (.mk p cid mcid (.Struct fields) attrs sc) c).1
        = ⟨.Struct,
            (Field.assignList fields (c + 1)).1.map
              (fun f => f.datatype.column_id.getD 0),
            (Field.assignList fields (c + 1)).1.map Field.name,
            none, none, none⟩ := by
      simp [entryOf, assign_column_ids, ThinType.assignChildren,
        DataType.thin_type]
    rw [hentry] at h0
    cases fuel with
    | zero => omega
    | succ f =>
      obtain ⟨cs, hdec, heq⟩ := decode_fields fields (c + 1) c arr f Htail
        (by omega) (Nat.lt_succ_self c)
      refine ⟨decodedNode c
        (.Struct (List.zipWith Field.mk
          ((Field.assignList fields (c + 1)).1.map Field.name) cs)) cs,
        ?_, ?_⟩
      · simp [decodeNode, h0, hdec]
      · simp [assign_column_ids, ThinType.assignChildren, DataType.structEq,
          ThinType.structEq, decodedNode, heq]
  | .mk p cid mcid (.Union alts) attrs sc, c, arr, fuel => by
    intro H hfuel
    have hsub : (assign_column_ids (.mk p cid mcid (.Union alts) attrs sc)
          c).1.subnodes
        = (assign_column_ids (.mk p cid mcid (.Union alts) attrs sc) c).1
          :: DataType.listSubnodes (DataType.assignList alts (c + 1)).1 := by
      simp [assign_column_ids, ThinType.assignChildren, DataType.subnodes,
        ThinType.childNodes]
    rw [hsub] at H hfuel
    simp only [List.map_cons] at H
    simp only [List.length_cons] at hfuel
    have h0 := slice_head H
    have Htail := slice_tail H
    have hentry : entryOf (assign_column_ids
          (.mk p cid mcid (.Union alts) attrs sc) c).1
        = ⟨.Union,
            (DataType.assignList alts (c + 1)).1.map
              (fun a => a.column_id.getD 0),
            [], none, none, none⟩ := by
      simp [entryOf, assign_column_ids, ThinType.assignChildren,
        DataType.thin_type]
    rw [hentry] at h0
    cases fuel with
    | zero => omega
    | succ f =>
      obtain ⟨cs, hdec, heq⟩ := decode_alts alts (c + 1) c arr f Htail
        (by omega) (Nat.lt_succ_self c)
      refine ⟨decodedNode c (.Union cs) cs, ?_, ?_⟩
      · simp [decodeNode, h0, hdec]
      · simp [assign_column_ids, ThinType.assignChildren, DataType.structEq,
          ThinType.structEq, decodedNode, heq]

theorem decode_fields : ∀ (fs : List Field) (c idx : Nat)
    (arr : List FlatEntry) (fuel : Nat),
    (∀ j, j < ((Field.listSubnodes (Field.assignList fs c).1).map
        entryOf).length →
      arr[c + j]? = ((Field.listSubnodes (Field.assignList fs c).1).map
        entryOf)[j]?) →
    (Field.listSubnodes (Field.assignList fs c).1).length ≤ fuel →
    idx < c →
    ∃ cs, decodeChildren arr fuel idx
        ((Field.assignList fs c).1.map
          (fun f => f.datatype.column_id.getD 0)) = .ok cs
      ∧ Field.listStructEq (Field.assignList fs c).1
          (List.zipWith Field.mk
            ((Field.assignList fs c).1.map Field.name) cs) = true
  | [], c, idx, arr, fuel => by
    intro H hfuel hidx
    refine ⟨[], ?_, ?_⟩
    · simp [Field.assignList, decodeChildren]
    · simp [Field.assignList, Field.listStructEq]
  | .mk nm d :: fs, c, idx, arr, fuel => by
    intro H hfuel hidx
    have hcons : (Field.assignList (Field.mk nm d :: fs) c).1
        = Field.mk nm (assign_column_ids d c).1
          :: (Field.assignList fs (assign_column_ids d c).2).1 := by
      simp [Field.assignList]
    have hsub : Field.listSubnodes (Field.assignList (Field.mk nm d :: fs)
          c).1
        = (assign_column_ids d c).1.subnodes
          ++ Field.listSubnodes
              (Field.assignList fs (assign_column_ids d c).2).1 := by
      simp [Field.assignList, Field.listSubnodes]
    rw [hsub] at H hfuel
    simp only [List.map_append] at H
    simp only [List.length_append] at hfuel
    have Hd := slice_append_left H
    have Hfs0 := slice_append_right H
    have hoff : c + (List.map entryOf
          (assign_column_ids d c).1.subnodes).length
        = (assign_column_ids d c).2 := by
      rw [List.length_map, assign_subnodes_length]
      exact ((assign_tree_ids d c).2).symm
    simp only [hoff] at Hfs0
    obtain ⟨td, hdd, heqd⟩ := decode_tree d c arr fuel Hd (by omega)
    obtain ⟨cs, hdcs, heqcs⟩ := decode_fields fs
      (assign_column_ids d c).2 idx arr fuel Hfs0 (by omega)
      (by have := (assign_tree_ids d c).2; omega)
    rw [hcons]
    have hnlt : ¬(c ≤ idx) := by omega
    have hchild : decodeChild arr fuel idx c = .ok td := by
      simp [decodeChild, hnlt, hdd]
    have hids : (Field.mk nm (assign_column_ids d c).1
          :: (Field.assignList fs (assign_column_ids d c).2).1).map
          (fun f => f.datatype.column_id.getD 0)
        = c :: (Field.assignList fs (assign_column_ids d c).2).1.map
            (fun f => f.datatype.column_id.getD 0) := by
      rw [List.map_cons]
      congr 1
      show (assign_column_ids d c).1.column_id.getD 0 = c
      rw [assign_column_id_eq]
      rfl
    rw [hids]
    refine ⟨td :: cs, ?_, ?_⟩
    · simp [decodeChildren, hchild, hdcs]
      try rfl
    · simp [Field.listStructEq, heqd, heqcs]
      try rfl

theorem decode_alts : ∀ (ds : List DataType) (c idx : Nat)
    (arr : List FlatEntry) (fuel : Nat),
    (∀ j, j < ((DataType.listSubnodes (DataType.assignList ds c).1).map
        entryOf).length →
      arr[c + j]? = ((DataType.listSubnodes (DataType.assignList ds c).1).map
        entryOf)[j]?) →
    (DataType.listSubnodes (DataType.assignList ds c).1).length ≤ fuel →
    idx < c →
    ∃ cs, decodeChildren arr fuel idx
        ((DataType.assignList ds c).1.map
          (fun a => a.column_id.getD 0)) = .ok cs
      ∧ DataType.listStructEq (DataType.assignList ds c).1 cs = true
  | [], c, idx, arr, fuel => by
    intro H hfuel hidx
    refine ⟨[], ?_, ?_⟩
    · simp [DataType.assignList, decodeChildren]
    · simp [DataType.assignList, DataType.listStructEq]
  | d :: ds, c, idx, arr, fuel => by
    intro H hfuel hidx
    have hcons : (DataType.assignList (d :: ds) c).1
        = (assign_column_ids d c).1
          :: (DataType.assignList ds (assign_column_ids d c).2).1 := by
      simp [DataType.assignList]
    have hsub : DataType.listSubnodes (DataType.assignList (d :: ds) c).1
        = (assign_column_ids d c).1.subnodes
          ++ DataType.listSubnodes
              (DataType.assignList ds (assign_column_ids d c).2).1 := by
      simp [DataType.assignList, DataType.listSubnodes]
    rw [hsub] at H hfuel
    simp only [List.map_append] at H
    simp only [List.length_append] at hfuel
    have Hd := slice_append_left H
    have Hds0 := slice_append_right H
    have hoff : c + (List.map entryOf
          (assign_column_ids d c).1.subnodes).length
        = (assign_column_ids d c).2 := by
      rw [List.length_map, assign_subnodes_length]
      exact ((assign_tree_ids d c).2).symm
    simp only [hoff] at Hds0
    obtain ⟨td, hdd, heqd⟩ := decode_tree d c arr fuel Hd (by omega)
    obtain ⟨cs, hdcs, heqcs⟩ := decode_alts ds
      (assign_column_ids d c).2 idx arr fuel Hds0 (by omega)
      (by have := (assign_tree_ids d c).2; omega)
    rw [hcons]
    have hnlt : ¬(c ≤ idx) := by omega
    have hchild : decodeChild arr fuel idx c = .ok td := by
      simp [decodeChild, hnlt, hdd]
    have hids : ((assign_column_ids d c).1
          :: (DataType.assignList ds (assign_column_ids d c).2).1).map
          (fun a => a.column_id.getD 0)
        = c :: (DataType.assignList ds (assign_column_ids d c).2).1.map
            (fun a => a.column_id.getD 0) := by
      rw [List.map_cons]
      congr 1
      show (assign_column_ids d c).1.column_id.getD 0 = c
      rw [assign_column_id_eq]
      rfl
    rw [hids]
    refine ⟨td :: cs, ?_, ?_⟩
    · simp [decodeChildren, hchild, hdcs]
      try rfl
    · simp [DataType.listStructEq, heqd, heqcs]

end


/-- C2: for every well-formed, numbered schema tree (any tree stamped by the
column-id assignment pass from counter 0), decoding its encoding succeeds
and yields a tree structurally equal to it: same TypeKinds, same shapes,
same column ids, same decimal precision/scale and char/varchar maximum
lengths. -/
theorem C2_decode_encode_roundtrip :
    ∀ S : DataType, ∃ T2,
      decode (encode (assign_column_ids S 0).1) = .ok T2
      ∧ DataType.structEq (assign_column_ids S 0).1 T2 = true := by
  intro S
  have H : ∀ j, j < ((assign_column_ids S 0).1.subnodes.map entryOf).length →
      (encode (assign_column_ids S 0).1)[0 + j]?
        = ((assign_column_ids S 0).1.subnodes.map entryOf)[j]? := by
    intro j hj
    simp [encode]
  obtain ⟨t, hdec, heq⟩ := decode_tree S 0 (encode (assign_column_ids S 0).1)
    ((encode (assign_column_ids S 0).1).length + 1) H
    (by simp [encode])
  exact ⟨t, hdec, heq⟩


end Orc
